import Mathlib

/-!
Verification of the Xiaomi MIoT binary sensor platform module
(custom_components/xiaomi_miot/binary_sensor.py).

The module maps a MIoT device spec (services and properties) onto
binary sensor entities.  The helper classes it imports (MiotSpec,
MiotService, MiotProperty, the cloud client and the entity base
classes) live outside the file under verification, so they are
modelled here as plain data with the lookup semantics the module
relies on.  All functions of the module itself are translated
directly from the source.
-/

/-- Python values as far as this module distinguishes them: the
module only cares about None, truthiness, numbers, strings and a
formatted timestamp string produced by datetime.fromtimestamp. -/
inductive PyVal : Type where
  | none : PyVal
  | bool : Bool → PyVal
  | int : Int → PyVal
  | str : String → PyVal
  | timeStr : Int → PyVal
  deriving Repr, DecidableEq

/-- Python truthiness for the values above. -/
def PyVal.truthy : PyVal → Bool
  | PyVal.none => false
  | PyVal.bool b => b
  | PyVal.int n => n ≠ 0
  | PyVal.str s => s ≠ ""
  | PyVal.timeStr _ => true

/-- Whether the first list is an initial segment of the second. -/
def leadsIn : List Char → List Char → Bool
  | [], _ => true
  | _ :: _, [] => false
  | a :: as, b :: bs => a = b && leadsIn as bs

/-- Whether the first list occurs contiguously inside the second. -/
def occursIn (needle : List Char) : List Char → Bool
  | [] => leadsIn needle []
  | b :: bs => leadsIn needle (b :: bs) || occursIn needle bs

/-- Substring containment, the Python needle-in-haystack test on
strings. -/
def strContains (haystack needle : String) : Bool :=
  occursIn needle.data haystack.data

/-- Value range of a MIoT property: minimum, maximum and step. -/
structure ValueRange : Type where
  min : Int
  max : Int
  step : Int
  deriving Repr, DecidableEq

/-- A MIoT property as the module reads it: a name, a full name
(service.property), an optional value range and a value list mapping
descriptions to value ids. -/
structure MiotPropertyM : Type where
  name : String
  full_name : String
  value_range : Option ValueRange := Option.none
  value_list : List (String × Int) := []
  deriving Repr, DecidableEq

/-- A MIoT service: a name, its properties in spec order, and whether
the user mapping for it is nonempty (srv.mapping() truthiness). -/
structure MiotServiceM : Type where
  name : String
  properties : List MiotPropertyM := []
  has_mapping : Bool := true
  deriving Repr, DecidableEq

/-- A MIoT device spec: its name and its services in spec order. -/
structure MiotSpecM : Type where
  name : String
  services : List MiotServiceM := []
  deriving Repr, DecidableEq

/-- Modelled from the spec: MiotService.get_property (defined in
core/miot_spec.py, which is outside the file under verification)
returns the property matching the first of the given names that any
property of the service bears, or None. -/
def MiotServiceM.get_property (srv : MiotServiceM) (names : List String) :
    Option MiotPropertyM :=
  names.findSome? fun n => srv.properties.find? fun p => p.name = n

/-- Modelled from the spec: MiotService.get_properties (defined in
core/miot_spec.py, outside the file under verification) returns all
properties of the service whose name is among the given names. -/
def MiotServiceM.get_properties (srv : MiotServiceM) (names : List String) :
    List MiotPropertyM :=
  srv.properties.filter fun p => decide (p.name ∈ names)

/-- Modelled from the spec: MiotSpec.get_service (defined in
core/miot_spec.py, outside the file under verification) returns the
first service with the given name, or None. -/
def MiotSpecM.get_service (spec : MiotSpecM) (n : String) :
    Option MiotServiceM :=
  spec.services.find? fun s => s.name = n

/-- Modelled from the spec: MiotSpec.get_services (defined in
core/miot_spec.py, outside the file under verification) returns the
services whose name is among the given names, in spec order. -/
def MiotSpecM.get_services (spec : MiotSpecM) (names : List String) :
    List MiotServiceM :=
  spec.services.filter fun s => decide (s.name ∈ names)

/-- MiotProperty.list_value: the value id of a description in the
value list, modelled from the spec as lookup in the list. -/
def MiotPropertyM.list_value (p : MiotPropertyM) (desc : String) :
    Option Int :=
  (p.value_list.find? fun e => e.fst = desc).map Prod.snd

/-- State-property selection performed by MiotBinarySensorEntity
init (binary_sensor.py lines 86 to 110).  The outer Option is None
when the Python code would raise AttributeError: in the
motion_sensor branch the code reads selfprop.name before checking
the property for None, so a motion_sensor service on which every
lookup fails makes the constructor crash.  The inner Option is the
resulting state property. -/
def initPropState (spec : MiotSpecM) (srv : MiotServiceM) :
    Option (Option MiotPropertyM) :=
  let pls : List String :=
    match srv.properties with
    | [] => []
    | p :: _ => if p.name ≠ "" then [p.name] else []
  let s0 : Option MiotPropertyM := srv.get_property pls
  if srv.name = "motion_sensor" then
    match (srv.get_property ["motion_state", "no_motion_duration"]).orElse
        (fun _ => s0) with
    | Option.none => Option.none
    | Option.some p =>
      let s1 : Option MiotPropertyM :=
        if p.name = "illumination" then Option.none else Option.some p
      match s1 with
      | Option.some q => Option.some (Option.some q)
      | Option.none =>
        match spec.get_service "nobody_time" with
        | Option.some sv => Option.some (sv.get_property ["nobody_time"])
        | Option.none => Option.some Option.none
  else if srv.name = "magnet_sensor" then
    Option.some ((srv.get_property ["contact_state"]).orElse (fun _ => s0))
  else if srv.name = "submersion_sensor" then
    Option.some ((srv.get_property ["submersion_state"]).orElse (fun _ => s0))
  else
    Option.some s0

/-- The state-property choice exactly as claim C1 words it for a
motion_sensor service: the motion_state property, else the
no_motion_duration property, else the first property of the
service. -/
def claimChosenState (srv : MiotServiceM) : Option MiotPropertyM :=
  ((srv.get_property ["motion_state"]).orElse
    (fun _ => srv.get_property ["no_motion_duration"])).orElse
    (fun _ => srv.properties.head?)

/-- MiotBinarySensorEntity.is_on (binary_sensor.py lines 122 to 140).
The arguments are the selected state property, the value the property
reads from the state attributes (numeric on these sensors), the
previous stored state, the reverse_state custom config and the
motion_timeout custom config. -/
def is_on (prop : Option MiotPropertyM) (attrVal : Option Int)
    (prevState : PyVal) (reverse : Bool) (motionTimeout : Option Int) :
    PyVal :=
  match prop with
  | Option.none => prevState
  | Option.some p =>
    match attrVal with
    | Option.none => prevState
    | Option.some v =>
      if reverse then PyVal.bool (v == 0)
      else if p.name = "no_motion_duration" ∨ p.name = "nobody_time" then
        let dur0 : Option Int := motionTimeout
        let dur1 : Option Int :=
          match dur0 with
          | Option.some d => Option.some d
          | Option.none =>
            match p.value_range with
            | Option.some r =>
              if r.step ≥ 10 then Option.some (r.min + r.step)
              else Option.none
            | Option.none => Option.none
        let dur : Int := dur1.getD 60
        PyVal.bool (v ≤ dur)
      else if v ≠ 0 then PyVal.bool true else PyVal.int 0

/-- The motion timeout exactly as claim C2 words it: the custom
motion_timeout when configured, otherwise range minimum plus range
step when the property has a value range with step at least ten,
otherwise sixty. -/
def claimMotionDur (p : MiotPropertyM) (tmo : Option Int) : Int :=
  match tmo with
  | Option.some d => d
  | Option.none =>
    match p.value_range with
    | Option.some r => if r.step ≥ 10 then r.min + r.step else 60
    | Option.none => 60

/-- Platform state strings from homeassistant.const. -/
def STATE_UNKNOWN : String := "unknown"

def STATE_ON : String := "on"

def STATE_OFF : String := "off"

/-- MiotBinarySensorEntity.state (binary_sensor.py lines 142 to 147):
unknown when is_on is None, on when truthy, off otherwise. -/
def stateOf (iso : PyVal) : String :=
  if iso = PyVal.none then STATE_UNKNOWN
  else if iso.truthy then STATE_ON else STATE_OFF

/-- The four entity classes async_setup_platform can instantiate. -/
inductive EntityKind : Type where
  | toilet : EntityKind
  | ble : EntityKind
  | lumi : EntityKind
  | basic : EntityKind
  deriving Repr, DecidableEq

/-- Entity-class dispatch of async_setup_platform (binary_sensor.py
lines 64 to 74) for one selected service. -/
def dispatchKind (spec : MiotSpecM) (srv : MiotServiceM)
    (did model : String) : EntityKind :=
  if srv.name = "toilet" then EntityKind.toilet
  else if srv.name = "seat" ∧ spec.name = "toilet" then EntityKind.toilet
  else if strContains did "blt." then EntityKind.ble
  else if strContains model "lumi." then EntityKind.lumi
  else EntityKind.basic

/-- Entity creation of async_setup_platform (binary_sensor.py lines
55 to 74): the selected services with the entity class created for
each, after the empty-mapping skip. -/
def setupEntities (spec : MiotSpecM) (did model : String) :
    List (MiotServiceM × EntityKind) :=
  (spec.get_services
      ["toilet", "seat", "motion_sensor", "magnet_sensor",
        "submersion_sensor"]).filterMap fun srv =>
    if (spec.get_service "nobody_time").isSome then
      Option.some (srv, dispatchKind spec srv did model)
    else if model = "lumi.sensor_wleak.aq1" then
      Option.some (srv, dispatchKind spec srv did model)
    else if !srv.has_mapping then
      Option.none
    else
      Option.some (srv, dispatchKind spec srv did model)

/-- Default of the motion_timeout custom config, the Python idiom
x or 60: the truthiness test maps both None and 0 to 60. -/
def orSixty : Option Int → Int
  | Option.none => 60
  | Option.some d => if d = 0 then 60 else d

/-- Payload of one BLE cloud prop entry after JSON parsing and the
hex decoding attempt: the timestamp of the event (events only) and
the decoded value.  The value is None when it was missing or the hex
decode failed, and keeps a falsy raw value unchanged. -/
structure BlePayload : Type where
  tim : Int
  val : PyVal := PyVal.none
  deriving Repr, DecidableEq

/-- One key of the batchdevicedatas result: the BLE object key and
its payload, None when the cloud returned None for it. -/
structure BleEntry : Type where
  key : String
  v : Option BlePayload
  deriving Repr, DecidableEq

/-- Python dict assignment on an attribute dictionary: replace the
entry with the given key, or append one.  Keys are unique, so
replacing the first occurrence models the dict. -/
def dictSet : List (String × PyVal) → String → PyVal →
    List (String × PyVal)
  | [], k, v => [(k, v)]
  | e :: rest, k, v =>
    if e.fst = k then (k, v) :: rest else e :: dictSet rest k v

/-- Python dict lookup on an attribute dictionary. -/
def dictGet (d : List (String × PyVal)) (k : String) : Option PyVal :=
  (d.find? fun e => e.fst = k).map Prod.snd

/-- Attribute key used for illumination values in
async_update_ble_data: the full name of the illumination property
when it exists and has a value range, else the literal
illumination. -/
def illumAttrKey (pi : Option MiotPropertyM) : String :=
  match pi with
  | Option.some ip =>
    if ip.value_range.isSome then ip.full_name else "illumination"
  | Option.none => "illumination"

/-- Loop body of BleBinarySensorEntity.async_update_ble_data
(binary_sensor.py lines 197 to 255) for one prop entry, threading the
pending state and the attribute updates. -/
def bleStep (now : Int) (motionTimeout : Option Int)
    (propIllum : Option MiotPropertyM) (srv : MiotServiceM)
    (acc : Option Bool × List (String × PyVal)) (e : BleEntry) :
    Option Bool × List (String × PyVal) :=
  match e.v with
  | Option.none => acc
  | Option.some p =>
    let sta := acc.fst
    let adt := acc.snd
    let ise := strContains e.key "event."
    let tim : Int := if ise then p.tim else 0
    let val : PyVal := p.val
    if ise && tim == 0 then acc
    else
      let illumKey : String := illumAttrKey propIllum
      let res : Option Bool × List (String × PyVal) × Option String ×
          PyVal :=
        if e.key = "event.15" then
          let adt1 := dictSet adt "trigger_time" (PyVal.int tim)
          let adt2 := dictSet adt1 "trigger_at" (PyVal.timeStr tim)
          let dif := now - tim
          (Option.some (dif ≤ orSixty motionTimeout), adt2,
            Option.some illumKey, val)
        else if e.key = "prop.4103" then
          (sta, adt, Option.some illumKey, val)
        else if e.key = "prop.4119" then
          match srv.get_property ["no_motion_duration"] with
          | Option.some pr => (sta, adt, Option.some pr.full_name, val)
          | Option.none => (sta, adt, Option.some "no_motion_duration", val)
        else if e.key = "prop.4120" then
          let adt1 := dictSet adt "light_strong" (PyVal.bool val.truthy)
          let val1 := PyVal.str (if val.truthy then "strong" else "weak")
          let adt2 :=
            match propIllum with
            | Option.some ip =>
              if ip.value_list ≠ [] then
                match ip.list_value (if val.truthy then "strong" else "weak")
                    with
                | Option.some vid =>
                  dictSet adt1 ip.full_name (PyVal.int vid)
                | Option.none => adt1
              else adt1
            | Option.none => adt1
          (sta, adt2, Option.some "illumination_level", val1)
        else if e.key = "prop.4121" then
          (Option.some (val ≠ PyVal.int 2), adt, Option.none, val)
        else
          (sta, adt, Option.none, val)
      match res with
      | (sta1, adt1, vlk, val1) =>
        match vlk with
        | Option.some k =>
          if val1 ≠ PyVal.none then (sta1, dictSet adt1 k val1)
          else (sta1, adt1)
        | Option.none => (sta1, adt1)

/-- Whole loop of BleBinarySensorEntity.async_update_ble_data over the
fetched props, starting from no pending state and no attribute
updates (binary_sensor.py lines 195 to 255). -/
def bleLoop (now : Int) (motionTimeout : Option Int)
    (propIllum : Option MiotPropertyM) (srv : MiotServiceM)
    (entries : List BleEntry) : Option Bool × List (String × PyVal) :=
  entries.foldl (bleStep now motionTimeout propIllum srv)
    (Option.none, [])

/-- Final state assignment of async_update_ble_data (binary_sensor.py
lines 256 to 257): the stored state is overwritten only when the loop
produced a state. -/
def bleApplyState (prev : Option Bool) (sta : Option Bool) : Option Bool :=
  match sta with
  | Option.none => prev
  | Option.some b => Option.some b

/-- Whether a BLE prop entry can assign the pending state in the
loop: a live event.15 with nonzero timestamp, or a prop.4121 whose
raw value is not None. -/
def bleStaSetter (e : BleEntry) : Bool :=
  match e.v with
  | Option.none => false
  | Option.some p =>
    (e.key == "event.15" && !(p.tim == 0)) || e.key == "prop.4121"

/-- Result of one MiotToiletEntity.async_update pass over the sub
entities: the sub-entity keys afterwards, the fan and switch keys
created in this pass, and the keys whose existing sub-entity had
update() called. -/
structure ToiletSubsResult : Type where
  subs : List String
  created_fans : List String
  created_switches : List String
  updated : List String
  deriving Repr, DecidableEq

/-- Loop body for one candidate fan property in
MiotToiletEntity.async_update (binary_sensor.py lines 297 to 309). -/
def toiletFanStep (addFans : Bool) (acc : ToiletSubsResult)
    (p : MiotPropertyM) : ToiletSubsResult :=
  if p.value_list = [] ∧ p.value_range = Option.none then acc
  else if p.name ∈ acc.subs then
    { acc with updated := acc.updated ++ [p.name] }
  else if addFans then
    { acc with subs := acc.subs ++ [p.name],
               created_fans := acc.created_fans ++ [p.name] }
  else acc

/-- Candidate fan properties collected by MiotToiletEntity
async_update (binary_sensor.py lines 283 to 296): the mode,
washing_strength, nozzle_position and heat_level properties of the
service, plus the heat_level property of the seat service of the
spec when present. -/
def toiletPls (spec : MiotSpecM) (srv : MiotServiceM) :
    List MiotPropertyM :=
  let pls0 := srv.get_properties
    ["mode", "washing_strength", "nozzle_position", "heat_level"]
  match spec.get_service "seat" with
  | Option.none => pls0
  | Option.some seat =>
    match seat.get_property ["heat_level"] with
    | Option.some p => pls0 ++ [p]
    | Option.none => pls0

/-- Sub-entity maintenance of MiotToiletEntity.async_update
(binary_sensor.py lines 282 to 318): the fan loop over the candidate
properties, then the power switch sub-entity.  The switch sub
entities update for a seat without heat_level is handled by an
inherited helper outside this module and creates no fan or switch
key here. -/
def toiletUpdateSubs (spec : MiotSpecM) (srv : MiotServiceM)
    (addFans addSwitches : Bool) (propPower : Option String)
    (subs : List String) : ToiletSubsResult :=
  let r1 := (toiletPls spec srv).foldl (toiletFanStep addFans)
    { subs := subs, created_fans := [], created_switches := [],
      updated := [] }
  match propPower with
  | Option.none => r1
  | Option.some pnm =>
    if pnm ∈ r1.subs then { r1 with updated := r1.updated ++ [pnm] }
    else if addSwitches then
      { r1 with subs := r1.subs ++ [pnm],
                created_switches := r1.created_switches ++ [pnm] }
    else r1

/-- One element of the parsed device_log JSON list in
LumiBinarySensorEntity.async_update: either a number (the trigger
time at index 0) or a pair of an event type and its values (index
1). -/
inductive LumiItem : Type where
  | num : Int → LumiItem
  | pair : String → List Int → LumiItem
  deriving Repr, DecidableEq

/-- State computation of LumiBinarySensorEntity.async_update
(binary_sensor.py lines 344 to 368).  A failed cloud fetch yields the
empty list, since json.loads of the fallback produces an empty list.
The outer Option is None when the Python code would raise (pes with
two or more entries whose index 1 is not an event pair, or whose
index 0 is not a number).  The inner Option Bool is the value stored
into the state: the code first sets it to None and only the listed
event branches assign a boolean. -/
def lumiNewState (srvName : String) (pes : List LumiItem) (now : Int)
    (motionTimeout : Option Int) : Option (Option Bool) :=
  let afterTyp : Option (Option String × Int) :=
    if pes.length ≥ 2 then
      match pes.get? 1, pes.get? 0 with
      | Option.some (LumiItem.pair typ _), Option.some (LumiItem.num t0) =>
        Option.some (Option.some typ, now - t0)
      | _, _ => Option.none
    else
      Option.some (Option.none, now)
  match afterTyp with
  | Option.none => Option.none
  | Option.some (typ, dif) =>
    if typ = Option.some "event.motion" ∨ srvName = "motion_sensor" then
      Option.some (Option.some (dif ≤ orSixty motionTimeout))
    else if typ = Option.some "event.open" ∨ typ = Option.some "event.close"
        then
      Option.some (Option.some (typ = Option.some "event.open"))
    else if typ = Option.some "event.leak" ∨ typ = Option.some "event.no_leak"
        then
      Option.some (Option.some (typ = Option.some "event.leak"))
    else
      Option.some Option.none

/-! Helper lemmas shared by the claim proofs. -/

lemma dictGet_dictSet_self (d : List (String × PyVal)) (k : String)
    (v : PyVal) : dictGet (dictSet d k v) k = Option.some v := by
  induction d with
  | nil => simp [dictSet, dictGet, List.find?]
  | cons e rest ih =>
    by_cases he : e.fst = k
    · simp [dictSet, he, dictGet, List.find?]
    · simp only [dictSet, if_neg he]
      simpa [dictGet, List.find?_cons, he] using ih

lemma dictGet_dictSet_ne (d : List (String × PyVal)) (k k' : String)
    (v : PyVal) (h : k' ≠ k) :
    dictGet (dictSet d k v) k' = dictGet d k' := by
  induction d with
  | nil => simp [dictSet, dictGet, List.find?, Ne.symm h]
  | cons e rest ih =>
    by_cases he : e.fst = k
    · have hek' : ¬ e.fst = k' := by
        rw [he]
        exact Ne.symm h
      simp [dictSet, he, dictGet, List.find?_cons, Ne.symm h, hek']
    · by_cases he' : e.fst = k'
      · simp [dictSet, he, dictGet, List.find?_cons, he', h]
      · simp only [dictSet, if_neg he]
        simpa [dictGet, List.find?_cons, he'] using ih

lemma get_property_two (srv : MiotServiceM) (a b : String) :
    srv.get_property [a, b] =
      (srv.get_property [a]).orElse (fun _ => srv.get_property [b]) := by
  cases h : srv.properties.find? (fun p => p.name = a) <;>
    simp [MiotServiceM.get_property, List.findSome?_cons, h, Option.orElse]

lemma get_property_head (srv : MiotServiceM) (p : MiotPropertyM)
    (rest : List MiotPropertyM) (h : srv.properties = p :: rest) :
    srv.get_property [p.name] = Option.some p := by
  simp [MiotServiceM.get_property, h, List.findSome?_cons, List.find?_cons]

/-- C9: for every binary sensor entity of the module, the state is
unknown exactly when is_on is None, on exactly when is_on is truthy,
off exactly when is_on is neither None nor truthy, so it never takes
any other value. -/
theorem C9_state_matches_is_on (prop : Option MiotPropertyM)
    (attrVal : Option Int) (prev : PyVal) (reverse : Bool)
    (tmo : Option Int) :
    (stateOf (is_on prop attrVal prev reverse tmo) = STATE_UNKNOWN ↔
      is_on prop attrVal prev reverse tmo = PyVal.none) ∧
    (stateOf (is_on prop attrVal prev reverse tmo) = STATE_ON ↔
      (is_on prop attrVal prev reverse tmo).truthy = true) ∧
    (stateOf (is_on prop attrVal prev reverse tmo) = STATE_OFF ↔
      (is_on prop attrVal prev reverse tmo ≠ PyVal.none ∧
        (is_on prop attrVal prev reverse tmo).truthy = false)) := by
  generalize is_on prop attrVal prev reverse tmo = v
  cases v with
  | none => simp [stateOf, PyVal.truthy, STATE_UNKNOWN, STATE_ON, STATE_OFF]
  | bool b =>
    cases b <;>
      simp [stateOf, PyVal.truthy, STATE_UNKNOWN, STATE_ON, STATE_OFF]
  | int n =>
    by_cases h : n = 0 <;>
      simp [stateOf, PyVal.truthy, STATE_UNKNOWN, STATE_ON, STATE_OFF, h]
  | str s =>
    by_cases h : s = "" <;>
      simp [stateOf, PyVal.truthy, STATE_UNKNOWN, STATE_ON, STATE_OFF, h]
  | timeStr t =>
    simp [stateOf, PyVal.truthy, STATE_UNKNOWN, STATE_ON, STATE_OFF]

/-- C2: for a state property named no_motion_duration or nobody_time
with a non-None value v and reverse_state unset, is_on is true
exactly when v is at most the effective timeout: the custom
motion_timeout when configured, else range minimum plus range step
when the value range has step at least ten, else sixty. -/
theorem C2_is_on_no_motion (p : MiotPropertyM) (v : Int) (prev : PyVal)
    (tmo : Option Int)
    (hname : p.name = "no_motion_duration" ∨ p.name = "nobody_time") :
    (is_on (Option.some p) (Option.some v) prev false tmo =
      PyVal.bool true) ↔ v ≤ claimMotionDur p tmo := by
  rcases tmo with _ | d
  · rcases hr : p.value_range with _ | r
    · simp [is_on, hname, claimMotionDur, hr]
    · by_cases hs : r.step ≥ 10 <;>
        simp [is_on, hname, claimMotionDur, hr, hs]
  · simp [is_on, hname, claimMotionDur]

/-- C2 witness: a no_motion_duration property without a value range,
value ten and no custom timeout gives an on state. -/
theorem C2_is_on_no_motion_witness :
    is_on (Option.some ⟨"no_motion_duration", "m.d", Option.none, []⟩)
      (Option.some 10) PyVal.none false Option.none = PyVal.bool true :=
  (C2_is_on_no_motion ⟨"no_motion_duration", "m.d", Option.none, []⟩ 10
    PyVal.none Option.none (Or.inl rfl)).mpr (by decide)

/-- C3 counterexample: on a Lumi motion_sensor entity, an update
whose device log fetch produced no entries still fabricates a state,
namely off, instead of leaving the state None. -/
theorem C3_counterexample :
    lumiNewState "motion_sensor" [] 1000000 Option.none =
        Option.some (Option.some false) ∧
      lumiNewState "motion_sensor" [] 1000000 Option.none ≠
        Option.some Option.none := by
  constructor
  · decide
  · decide

/-- C3 amended: when the device log fetch fails or yields fewer than
two entries, the update stores None as the state, unless the service
is named motion_sensor, in which case it stores the comparison of
the current epoch time against the motion timeout, off in
practice. -/
theorem C3_short_log_state (srvName : String) (pes : List LumiItem)
    (now : Int) (tmo : Option Int) (hlen : pes.length < 2) :
    (srvName ≠ "motion_sensor" →
      lumiNewState srvName pes now tmo = Option.some Option.none) ∧
    (srvName = "motion_sensor" →
      lumiNewState srvName pes now tmo =
        Option.some (Option.some (decide (now ≤ orSixty tmo)))) := by
  have hl : ¬ pes.length ≥ 2 := by omega
  constructor
  · intro hs
    simp [lumiNewState, hl, hs]
  · intro hs
    simp [lumiNewState, hl, hs]

/-- C3 witness: a magnet_sensor entity whose fetch yields nothing
keeps the state None. -/
theorem C3_short_log_state_witness :
    lumiNewState "magnet_sensor" [] 5 Option.none =
      Option.some Option.none :=
  (C3_short_log_state "magnet_sensor" [] 5 Option.none (by decide)).1
    (by decide)

/-- C6 counterexample: a Lumi motion_sensor entity receiving a log
whose trigger type is event.open takes its state from the motion
branch, off here, not from the comparison with event.open, which
would be on. -/
theorem C6_counterexample :
    lumiNewState "motion_sensor"
        [LumiItem.num 0, LumiItem.pair "event.open" []] 1000000
        Option.none = Option.some (Option.some false) ∧
      lumiNewState "motion_sensor"
        [LumiItem.num 0, LumiItem.pair "event.open" []] 1000000
        Option.none ≠ Option.some (Option.some true) := by
  constructor
  · decide
  · decide

/-- C6 amended: on a service not named motion_sensor, a log with at
least two entries whose trigger type is event.open or event.close
sets the state to whether the type is event.open, and a type of
event.leak or event.no_leak sets it to whether the type is
event.leak. -/
theorem C6_open_close_leak (srvName : String) (t0 : Int) (typ : String)
    (vals : List Int) (rest : List LumiItem) (now : Int)
    (tmo : Option Int) (hs : srvName ≠ "motion_sensor") :
    ((typ = "event.open" ∨ typ = "event.close") →
      lumiNewState srvName
          (LumiItem.num t0 :: LumiItem.pair typ vals :: rest) now tmo =
        Option.some (Option.some (decide (typ = "event.open")))) ∧
    ((typ = "event.leak" ∨ typ = "event.no_leak") →
      lumiNewState srvName
          (LumiItem.num t0 :: LumiItem.pair typ vals :: rest) now tmo =
        Option.some (Option.some (decide (typ = "event.leak")))) := by
  constructor
  · rintro (h | h) <;> subst h <;> simp [lumiNewState, hs]
  · rintro (h | h) <;> subst h <;> simp [lumiNewState, hs]

/-- C6 witness: a magnet_sensor entity with an event.close log entry
ends up off. -/
theorem C6_open_close_leak_witness :
    lumiNewState "magnet_sensor"
        [LumiItem.num 3, LumiItem.pair "event.close" []] 100
        Option.none = Option.some (Option.some false) := by
  have h := (C6_open_close_leak "magnet_sensor" 3 "event.close" [] [] 100
    Option.none (by decide)).1 (Or.inr rfl)
  simpa using h

lemma setupEntities_mem (spec : MiotSpecM) (did model : String)
    (srv : MiotServiceM) (k : EntityKind)
    (h : (srv, k) ∈ setupEntities spec did model) :
    srv ∈ spec.get_services
        ["toilet", "seat", "motion_sensor", "magnet_sensor",
          "submersion_sensor"] ∧
      k = dispatchKind spec srv did model ∧
      ((spec.get_service "nobody_time").isSome = true ∨
        model = "lumi.sensor_wleak.aq1" ∨ srv.has_mapping = true) := by
  rcases List.mem_filterMap.mp h with ⟨srv', hmem, hf⟩
  by_cases h1 : (spec.get_service "nobody_time").isSome = true
  · simp only [setupEntities, if_pos h1, Option.some.injEq, Prod.mk.injEq]
      at hf
    rcases hf with ⟨rfl, rfl⟩
    exact ⟨hmem, rfl, Or.inl h1⟩
  · by_cases h2 : model = "lumi.sensor_wleak.aq1"
    · simp only [setupEntities, if_neg h1, if_pos h2, Option.some.injEq,
        Prod.mk.injEq] at hf
      rcases hf with ⟨rfl, rfl⟩
      exact ⟨hmem, rfl, Or.inr (Or.inl h2)⟩
    · by_cases h3 : srv'.has_mapping = true
      · simp only [setupEntities, if_neg h1, if_neg h2, h3,
          Bool.not_true, Bool.false_eq_true, if_false, Option.some.injEq,
          Prod.mk.injEq] at hf
        rcases hf with ⟨rfl, rfl⟩
        exact ⟨hmem, rfl, Or.inr (Or.inr h3)⟩
      · exfalso
        have h3' : srv'.has_mapping = false := by
          cases hb : srv'.has_mapping
          · rfl
          · exact absurd hb h3
        simp [setupEntities, h1, h2, h3'] at hf

/-- C4: every entity created by async_setup_platform for a selected
service follows the dispatch order: a toilet service, or a seat
service of a toilet spec, gives a toilet entity; else a did
containing blt. gives a BLE entity; else a model containing lumi.
gives a Lumi entity; else the plain MIoT entity. -/
theorem C4_entity_dispatch (spec : MiotSpecM) (did model : String)
    (srv : MiotServiceM) (k : EntityKind)
    (h : (srv, k) ∈ setupEntities spec did model) :
    k = (if srv.name = "toilet" ∨ (srv.name = "seat" ∧ spec.name = "toilet")
         then EntityKind.toilet
         else if strContains did "blt." = true then EntityKind.ble
         else if strContains model "lumi." = true then EntityKind.lumi
         else EntityKind.basic) := by
  have hk := (setupEntities_mem spec did model srv k h).2.1
  subst hk
  simp only [dispatchKind]
  split_ifs <;> first | rfl | tauto

/-- C4 witness: a motion_sensor service on a lumi model with no BLE
did dispatches to the Lumi entity class. -/
theorem C4_entity_dispatch_witness :
    EntityKind.lumi =
      (if ("motion_sensor" = "toilet" ∨
            ("motion_sensor" = "seat" ∧ "motion" = "toilet"))
       then EntityKind.toilet
       else if strContains "123" "blt." = true then EntityKind.ble
       else if strContains "lumi.motion.agl02" "lumi." = true then
         EntityKind.lumi
       else EntityKind.basic) :=
  C4_entity_dispatch ⟨"motion", [⟨"motion_sensor", [], true⟩]⟩ "123"
    "lumi.motion.agl02" ⟨"motion_sensor", [], true⟩ EntityKind.lumi
    (by decide)

/-- C7: async_setup_platform creates entities only for services named
toilet, seat, motion_sensor, magnet_sensor or submersion_sensor, and
a created entity whose service has an empty mapping exists only when
the spec has a nobody_time service or the model is
lumi.sensor_wleak.aq1. -/
theorem C7_setup_selection (spec : MiotSpecM) (did model : String)
    (srv : MiotServiceM) (k : EntityKind)
    (h : (srv, k) ∈ setupEntities spec did model) :
    (srv.name = "toilet" ∨ srv.name = "seat" ∨ srv.name = "motion_sensor" ∨
      srv.name = "magnet_sensor" ∨ srv.name = "submersion_sensor") ∧
    (srv.has_mapping = false →
      (spec.get_service "nobody_time").isSome = true ∨
        model = "lumi.sensor_wleak.aq1") := by
  obtain ⟨hmem, _, hskip⟩ := setupEntities_mem spec did model srv k h
  constructor
  · have hmem' := hmem
    simp only [MiotSpecM.get_services, List.mem_filter, decide_eq_true_eq,
      List.mem_cons, List.not_mem_nil, or_false] at hmem'
    tauto
  · intro hmap
    rcases hskip with h1 | h2 | h3
    · exact Or.inl h1
    · exact Or.inr h2
    · rw [hmap] at h3
      exact absurd h3 (by decide)

/-- C7 witness: a motion_sensor service with an empty mapping is kept
because the spec has a nobody_time service. -/
theorem C7_setup_selection_witness :
    ("motion_sensor" = "toilet" ∨ "motion_sensor" = "seat" ∨
      "motion_sensor" = "motion_sensor" ∨
      "motion_sensor" = "magnet_sensor" ∨
      "motion_sensor" = "submersion_sensor") ∧
    (false = false →
      ((⟨"motion", [⟨"motion_sensor", [], false⟩,
          ⟨"nobody_time", [], false⟩]⟩ :
            MiotSpecM).get_service "nobody_time").isSome = true ∨
        "lumi.motion.agl02" = "lumi.sensor_wleak.aq1") :=
  C7_setup_selection
    ⟨"motion", [⟨"motion_sensor", [], false⟩, ⟨"nobody_time", [], false⟩]⟩
    "" "lumi.motion.agl02" ⟨"motion_sensor", [], false⟩ EntityKind.lumi
    (by decide)

/-- C1: for a motion_sensor service whose entity constructor
completes, the state property is the motion_state property, else the
no_motion_duration property, else the first property of the service;
when the property so chosen is named illumination the state property
becomes None and is then taken as the nobody_time property of the
nobody_time service of the spec when that service exists. -/
theorem C1_motion_prop_choice (spec : MiotSpecM) (srv : MiotServiceM)
    (r : Option MiotPropertyM)
    (hname : srv.name = "motion_sensor")
    (h : initPropState spec srv = Option.some r) :
    r = (match claimChosenState srv with
         | Option.some p =>
           if p.name = "illumination" then
             match spec.get_service "nobody_time" with
             | Option.some sv => sv.get_property ["nobody_time"]
             | Option.none => Option.none
           else Option.some p
         | Option.none => Option.none) := by
  rw [initPropState, get_property_two, hname] at h
  simp only [if_pos, if_true, reduceIte] at h
  cases hm : srv.get_property ["motion_state"] with
  | some p =>
    rw [hm] at h
    simp only [Option.orElse, claimChosenState, hm] at h ⊢
    by_cases hil : p.name = "illumination"
    · rw [if_pos hil] at h ⊢
      cases hnb : spec.get_service "nobody_time" <;> rw [hnb] at h <;>
        simp_all
    · rw [if_neg hil] at h ⊢
      simp_all
  | none =>
    rw [hm] at h
    cases hn : srv.get_property ["no_motion_duration"] with
    | some q =>
      rw [hn] at h
      simp only [Option.orElse, claimChosenState, hm, hn] at h ⊢
      by_cases hil : q.name = "illumination"
      · rw [if_pos hil] at h ⊢
        cases hnb : spec.get_service "nobody_time" <;> rw [hnb] at h <;>
          simp_all
      · rw [if_neg hil] at h ⊢
        simp_all
    | none =>
      rw [hn] at h
      simp only [Option.orElse, claimChosenState, hm, hn] at h ⊢
      cases hp : srv.properties with
      | nil =>
        rw [hp] at h
        simp [MiotServiceM.get_property] at h
      | cons p0 rest =>
        rw [hp] at h
        by_cases h0 : p0.name = ""
        · simp only [h0, ne_eq, not_true_eq_false, if_false,
            if_neg] at h
          simp [MiotServiceM.get_property] at h
        · have hhead : srv.get_property [p0.name] = Option.some p0 :=
            get_property_head srv p0 rest hp
          simp only [ne_eq, h0, not_false_iff, if_true, if_pos] at h
          rw [hhead] at h
          simp only [List.head?] at h ⊢
          by_cases hil : p0.name = "illumination"
          · rw [if_pos hil] at h ⊢
            cases hnb : spec.get_service "nobody_time" <;> rw [hnb] at h <;>
              simp_all
          · rw [if_neg hil] at h ⊢
            simp_all

/-- C1 witness: a motion_sensor service whose only property is named
illumination, on a spec with a nobody_time service, ends with the
nobody_time property as state property. -/
theorem C1_motion_prop_choice_witness :
    (Option.some (MiotPropertyM.mk "nobody_time" "nt.nobody_time"
        Option.none []) : Option MiotPropertyM) =
      (match claimChosenState (MiotServiceM.mk "motion_sensor"
          [MiotPropertyM.mk "illumination" "s.illumination" Option.none []]
          true) with
       | Option.some p =>
         if p.name = "illumination" then
           match (MiotSpecM.mk "motion"
               [MiotServiceM.mk "motion_sensor"
                 [MiotPropertyM.mk "illumination" "s.illumination"
                   Option.none []] true,
                MiotServiceM.mk "nobody_time"
                 [MiotPropertyM.mk "nobody_time" "nt.nobody_time"
                   Option.none []] true]).get_service "nobody_time" with
           | Option.some sv => sv.get_property ["nobody_time"]
           | Option.none => Option.none
         else Option.some p
       | Option.none => Option.none) :=
  C1_motion_prop_choice
    (MiotSpecM.mk "motion"
      [MiotServiceM.mk "motion_sensor"
        [MiotPropertyM.mk "illumination" "s.illumination" Option.none []]
        true,
       MiotServiceM.mk "nobody_time"
        [MiotPropertyM.mk "nobody_time" "nt.nobody_time" Option.none []]
        true])
    (MiotServiceM.mk "motion_sensor"
      [MiotPropertyM.mk "illumination" "s.illumination" Option.none []]
      true)
    (Option.some (MiotPropertyM.mk "nobody_time" "nt.nobody_time"
      Option.none []))
    rfl (by decide)


lemma bleStep_fst_of_not_setter (now : Int) (tmo : Option Int)
    (pi : Option MiotPropertyM) (srv : MiotServiceM)
    (acc : Option Bool × List (String × PyVal)) (e : BleEntry)
    (h : bleStaSetter e = false) :
    (bleStep now tmo pi srv acc e).fst = acc.fst := by
  cases hv : e.v with
  | none => simp [bleStep, hv]
  | some p =>
    rw [bleStaSetter, hv] at h
    simp only [Bool.or_eq_false_iff, Bool.and_eq_false_iff,
      beq_eq_false_iff_ne, ne_eq, Bool.not_eq_false] at h
    obtain ⟨h15, h21⟩ := h
    by_cases hise : strContains e.key "event." = true
    · by_cases htim : p.tim = 0
      · simp [bleStep, hv, hise, htim]
      · have hk15 : ¬ e.key = "event.15" := by
          rcases h15 with h' | h'
          · exact h'
          · exact absurd (by simpa using h') htim
        simp only [bleStep, hv, hise, htim, if_neg hk15, if_neg h21,
          if_true, if_false, Bool.true_and, beq_iff_eq, ite_true,
          ite_false, eq_self_iff_true, not_false_iff]
        by_cases h03 : e.key = "prop.4103"
        · simp only [if_pos h03]
          split <;> simp
        · simp only [if_neg h03]
          by_cases h19 : e.key = "prop.4119"
          · simp only [if_pos h19]
            cases srv.get_property ["no_motion_duration"] <;>
              simp only [] <;> split <;> simp
          · simp only [if_neg h19]
            by_cases h20 : e.key = "prop.4120"
            · simp only [if_pos h20]
              split <;> simp
            · simp only [if_neg h20]
    · have hk15 : ¬ e.key = "event.15" := by
        intro hc
        rw [hc] at hise
        exact hise (by decide)
      simp only [bleStep, hv, hise, if_neg hk15, if_neg h21,
        Bool.false_and, Bool.false_eq_true, if_false, ite_false,
        eq_self_iff_true, not_false_iff]
      by_cases h03 : e.key = "prop.4103"
      · simp only [if_pos h03]
        split <;> simp
      · simp only [if_neg h03]
        by_cases h19 : e.key = "prop.4119"
        · simp only [if_pos h19]
          cases srv.get_property ["no_motion_duration"] <;>
            simp only [] <;> split <;> simp
        · simp only [if_neg h19]
          by_cases h20 : e.key = "prop.4120"
          · simp only [if_pos h20]
            split <;> simp
          · simp only [if_neg h20]


lemma ne_illum_key (kq : String) (x : Option MiotPropertyM)
    (hx : ∀ ip, x = Option.some ip → kq ≠ ip.full_name)
    (h3 : kq ≠ "illumination") : kq ≠ illumAttrKey x := by
  cases x with
  | none => exact h3
  | some ip =>
    by_cases hr : ip.value_range.isSome = true
    · simpa [illumAttrKey, hr] using hx ip rfl
    · simpa [illumAttrKey, hr] using h3

lemma bleStep_snd_key_of_not_setter (now : Int) (tmo : Option Int)
    (pi : Option MiotPropertyM) (srv : MiotServiceM)
    (acc : Option Bool × List (String × PyVal)) (e : BleEntry)
    (kq : String)
    (h : bleStaSetter e = false)
    (hq1 : kq ≠ "light_strong")
    (hq2 : kq ≠ "illumination_level")
    (hq3 : kq ≠ "illumination")
    (hq4 : kq ≠ "no_motion_duration")
    (hq5 : ∀ ip, pi = Option.some ip → kq ≠ ip.full_name)
    (hq6 : ∀ pr, srv.get_property ["no_motion_duration"] = Option.some pr →
      kq ≠ pr.full_name) :
    dictGet (bleStep now tmo pi srv acc e).snd kq = dictGet acc.snd kq := by
  have hillum := ne_illum_key kq pi hq5 hq3
  cases hv : e.v with
  | none => simp [bleStep, hv]
  | some p =>
    rw [bleStaSetter, hv] at h
    simp only [Bool.or_eq_false_iff, Bool.and_eq_false_iff,
      beq_eq_false_iff_ne, ne_eq, Bool.not_eq_false] at h
    obtain ⟨h15, h21⟩ := h
    by_cases hise : strContains e.key "event." = true
    · by_cases htim : p.tim = 0
      · simp [bleStep, hv, hise, htim]
      · have hk15 : ¬ e.key = "event.15" := by
          rcases h15 with h' | h'
          · exact h'
          · exact absurd (by simpa using h') htim
        simp only [bleStep, hv, hise, htim, if_neg hk15, if_neg h21,
          if_true, if_false, Bool.true_and, beq_iff_eq, ite_true,
          ite_false, eq_self_iff_true, not_false_iff]
        by_cases h03 : e.key = "prop.4103"
        · simp only [if_pos h03]
          split
          · simp [dictGet_dictSet_ne _ _ _ _ hillum]
          · rfl
        · simp only [if_neg h03]
          by_cases h19 : e.key = "prop.4119"
          · simp only [if_pos h19]
            cases hnp : srv.get_property ["no_motion_duration"] with
            | none =>
              simp only []
              split
              · simp [dictGet_dictSet_ne _ _ _ _ hq4]
              · rfl
            | some pr =>
              simp only []
              split
              · simp [dictGet_dictSet_ne _ _ _ _ (hq6 pr hnp)]
              · rfl
          · simp only [if_neg h19]
            by_cases h20 : e.key = "prop.4120"
            · simp only [if_pos h20]
              simp only [ne_eq, reduceCtorEq, not_false_iff, if_true,
                ite_true]
              rw [dictGet_dictSet_ne _ _ _ _ hq2]
              cases pi with
              | none => simp [dictGet_dictSet_ne _ _ _ _ hq1]
              | some ip =>
                by_cases hl : ip.value_list = []
                · simp [hl, dictGet_dictSet_ne _ _ _ _ hq1]
                · simp only [hl, if_neg, ite_false, not_false_iff,
                    ite_true, if_true]
                  cases ip.list_value
                      (if p.val.truthy = true then "strong" else "weak")
                      with
                  | none => simp [dictGet_dictSet_ne _ _ _ _ hq1]
                  | some vid =>
                    simp [dictGet_dictSet_ne _ _ _ _ (hq5 ip rfl),
                      dictGet_dictSet_ne _ _ _ _ hq1]
            · simp only [if_neg h20]
    · have hk15 : ¬ e.key = "event.15" := by
        intro hc
        rw [hc] at hise
        exact hise (by decide)
      simp only [bleStep, hv, hise, if_neg hk15, if_neg h21,
        Bool.false_and, Bool.false_eq_true, if_false, ite_false,
        eq_self_iff_true, not_false_iff]
      by_cases h03 : e.key = "prop.4103"
      · simp only [if_pos h03]
        split
        · simp [dictGet_dictSet_ne _ _ _ _ hillum]
        · rfl
      · simp only [if_neg h03]
        by_cases h19 : e.key = "prop.4119"
        · simp only [if_pos h19]
          cases hnp : srv.get_property ["no_motion_duration"] with
          | none =>
            simp only []
            split
            · simp [dictGet_dictSet_ne _ _ _ _ hq4]
            · rfl
          | some pr =>
            simp only []
            split
            · simp [dictGet_dictSet_ne _ _ _ _ (hq6 pr hnp)]
            · rfl
        · simp only [if_neg h19]
          by_cases h20 : e.key = "prop.4120"
          · simp only [if_pos h20]
            simp only [ne_eq, reduceCtorEq, not_false_iff, if_true,
              ite_true]
            rw [dictGet_dictSet_ne _ _ _ _ hq2]
            cases pi with
            | none => simp [dictGet_dictSet_ne _ _ _ _ hq1]
            | some ip =>
              by_cases hl : ip.value_list = []
              · simp [hl, dictGet_dictSet_ne _ _ _ _ hq1]
              · simp only [hl, if_neg, ite_false, not_false_iff,
                  ite_true, if_true]
                cases ip.list_value
                    (if p.val.truthy = true then "strong" else "weak")
                    with
                | none => simp [dictGet_dictSet_ne _ _ _ _ hq1]
                | some vid =>
                  simp [dictGet_dictSet_ne _ _ _ _ (hq5 ip rfl),
                    dictGet_dictSet_ne _ _ _ _ hq1]
          · simp only [if_neg h20]

lemma bleFoldl_fst (now : Int) (tmo : Option Int)
    (pi : Option MiotPropertyM) (srv : MiotServiceM)
    (l : List BleEntry) (acc : Option Bool × List (String × PyVal))
    (h : ∀ e ∈ l, bleStaSetter e = false) :
    (l.foldl (bleStep now tmo pi srv) acc).fst = acc.fst := by
  induction l generalizing acc with
  | nil => rfl
  | cons e rest ih =>
    rw [List.foldl_cons,
      ih _ (fun x hx => h x (List.mem_cons_of_mem _ hx)),
      bleStep_fst_of_not_setter _ _ _ _ _ _ (h e (List.mem_cons_self _ _))]

lemma bleFoldl_snd_key (now : Int) (tmo : Option Int)
    (pi : Option MiotPropertyM) (srv : MiotServiceM)
    (l : List BleEntry) (acc : Option Bool × List (String × PyVal))
    (kq : String)
    (h : ∀ e ∈ l, bleStaSetter e = false)
    (hq1 : kq ≠ "light_strong")
    (hq2 : kq ≠ "illumination_level")
    (hq3 : kq ≠ "illumination")
    (hq4 : kq ≠ "no_motion_duration")
    (hq5 : ∀ ip, pi = Option.some ip → kq ≠ ip.full_name)
    (hq6 : ∀ pr, srv.get_property ["no_motion_duration"] = Option.some pr →
      kq ≠ pr.full_name) :
    dictGet (l.foldl (bleStep now tmo pi srv) acc).snd kq =
      dictGet acc.snd kq := by
  induction l generalizing acc with
  | nil => rfl
  | cons e rest ih =>
    rw [List.foldl_cons,
      ih _ (fun x hx => h x (List.mem_cons_of_mem _ hx)),
      bleStep_snd_key_of_not_setter _ _ _ _ _ _ _
        (h e (List.mem_cons_self _ _)) hq1 hq2 hq3 hq4 hq5 hq6]


lemma bleStep_event15 (now : Int) (tmo : Option Int)
    (pi : Option MiotPropertyM) (srv : MiotServiceM)
    (acc : Option Bool × List (String × PyVal)) (e : BleEntry)
    (p : BlePayload)
    (hk : e.key = "event.15") (hv : e.v = Option.some p)
    (ht : p.tim ≠ 0)
    (hi5 : ∀ ip, pi = Option.some ip →
      ip.full_name ≠ "trigger_time" ∧ ip.full_name ≠ "trigger_at") :
    (bleStep now tmo pi srv acc e).fst =
      Option.some (decide (now - p.tim ≤ orSixty tmo)) ∧
    dictGet (bleStep now tmo pi srv acc e).snd "trigger_time" =
      Option.some (PyVal.int p.tim) ∧
    dictGet (bleStep now tmo pi srv acc e).snd "trigger_at" =
      Option.some (PyVal.timeStr p.tim) := by
  have htt : ("trigger_time" : String) ≠ illumAttrKey pi :=
    ne_illum_key _ _ (fun ip h => Ne.symm (hi5 ip h).1) (by decide)
  have hta : ("trigger_at" : String) ≠ illumAttrKey pi :=
    ne_illum_key _ _ (fun ip h => Ne.symm (hi5 ip h).2) (by decide)
  have hise : strContains e.key "event." = true := by
    rw [hk]
    decide
  have hbeq : (p.tim == 0) = false := by
    simpa using ht
  simp only [bleStep, hv, hise, hbeq, ite_true, if_true, Bool.true_and,
    Bool.false_eq_true, ite_false, if_false]
  rw [if_pos hk]
  dsimp only
  split
  · refine ⟨rfl, ?_, ?_⟩
    · rw [dictGet_dictSet_ne _ _ _ _ htt,
        dictGet_dictSet_ne _ _ _ _
          (by decide : ("trigger_time" : String) ≠ "trigger_at"),
        dictGet_dictSet_self]
    · rw [dictGet_dictSet_ne _ _ _ _ hta, dictGet_dictSet_self]
  · refine ⟨rfl, ?_, ?_⟩
    · rw [dictGet_dictSet_ne _ _ _ _
          (by decide : ("trigger_time" : String) ≠ "trigger_at"),
        dictGet_dictSet_self]
    · rw [dictGet_dictSet_self]

/-- C5 counterexample: with motion_timeout configured as 0 and an
event.15 whose trigger is 30 seconds old, the code turns the state on
because x or 60 treats the configured 0 as unset, while the claimed
threshold (the custom motion_timeout) would demand 30 at most 0. -/
theorem C5_counterexample :
    (bleLoop 1000 (Option.some 0) Option.none
        (MiotServiceM.mk "motion_sensor" [] true)
        [BleEntry.mk "event.15"
          (Option.some (BlePayload.mk 970 PyVal.none))]).fst =
      Option.some true ∧ ¬ ((1000 - 970 : Int) ≤ 0) := by
  constructor
  · decide
  · decide

/-- C5 amended: a payload holding an event.15 entry with nonzero
timestamp t, followed by no further state-setting entry, yields state
on exactly when now minus t is at most the custom motion_timeout when
that is configured nonzero, else 60 (the code treats a configured 0
as unset), and records the trigger_time and trigger_at attributes;
the property full names must not collide with the trigger keys. -/
theorem C5_event15_state (now : Int) (tmo : Option Int)
    (pi : Option MiotPropertyM) (srv : MiotServiceM)
    (l1 l2 : List BleEntry) (ek : BleEntry) (p : BlePayload)
    (hk : ek.key = "event.15") (hv : ek.v = Option.some p)
    (ht : p.tim ≠ 0)
    (hl2 : ∀ e ∈ l2, bleStaSetter e = false)
    (hi5 : ∀ ip, pi = Option.some ip →
      ip.full_name ≠ "trigger_time" ∧ ip.full_name ≠ "trigger_at")
    (hs6 : ∀ pr, srv.get_property ["no_motion_duration"] =
        Option.some pr →
      pr.full_name ≠ "trigger_time" ∧ pr.full_name ≠ "trigger_at") :
    (bleLoop now tmo pi srv (l1 ++ ek :: l2)).fst =
      Option.some (decide (now - p.tim ≤ orSixty tmo)) ∧
    dictGet (bleLoop now tmo pi srv (l1 ++ ek :: l2)).snd
        "trigger_time" = Option.some (PyVal.int p.tim) ∧
    dictGet (bleLoop now tmo pi srv (l1 ++ ek :: l2)).snd
        "trigger_at" = Option.some (PyVal.timeStr p.tim) := by
  have hstep := bleStep_event15 now tmo pi srv
    (List.foldl (bleStep now tmo pi srv) (Option.none, []) l1) ek p
    hk hv ht hi5
  have hunf : bleLoop now tmo pi srv (l1 ++ ek :: l2) =
      List.foldl (bleStep now tmo pi srv)
        (bleStep now tmo pi srv
          (List.foldl (bleStep now tmo pi srv) (Option.none, []) l1) ek)
        l2 := by
    rw [bleLoop, List.foldl_append, List.foldl_cons]
  rw [hunf]
  refine ⟨?_, ?_, ?_⟩
  · rw [bleFoldl_fst _ _ _ _ _ _ hl2]
    exact hstep.1
  · rw [bleFoldl_snd_key _ _ _ _ _ _ _ hl2 (by decide) (by decide)
      (by decide) (by decide) (fun ip h => Ne.symm (hi5 ip h).1)
      (fun pr h => Ne.symm (hs6 pr h).1)]
    exact hstep.2.1
  · rw [bleFoldl_snd_key _ _ _ _ _ _ _ hl2 (by decide) (by decide)
      (by decide) (by decide) (fun ip h => Ne.symm (hi5 ip h).2)
      (fun pr h => Ne.symm (hs6 pr h).2)]
    exact hstep.2.2

/-- C5 witness: one fresh event.15 entry with timestamp 970 at time
1000 and no configured timeout turns the state on and records the
trigger attributes. -/
theorem C5_event15_state_witness :
    (bleLoop 1000 Option.none Option.none
        (MiotServiceM.mk "motion_sensor" [] true)
        ([] ++ BleEntry.mk "event.15"
          (Option.some (BlePayload.mk 970 PyVal.none)) :: [])).fst =
      Option.some (decide ((1000 : Int) -
        (BlePayload.mk 970 PyVal.none).tim ≤ orSixty Option.none)) ∧
    dictGet (bleLoop 1000 Option.none Option.none
        (MiotServiceM.mk "motion_sensor" [] true)
        ([] ++ BleEntry.mk "event.15"
          (Option.some (BlePayload.mk 970 PyVal.none)) :: [])).snd
        "trigger_time" =
      Option.some (PyVal.int (BlePayload.mk 970 PyVal.none).tim) ∧
    dictGet (bleLoop 1000 Option.none Option.none
        (MiotServiceM.mk "motion_sensor" [] true)
        ([] ++ BleEntry.mk "event.15"
          (Option.some (BlePayload.mk 970 PyVal.none)) :: [])).snd
        "trigger_at" =
      Option.some (PyVal.timeStr (BlePayload.mk 970 PyVal.none).tim) :=
  C5_event15_state 1000 Option.none Option.none
    (MiotServiceM.mk "motion_sensor" [] true) [] []
    (BleEntry.mk "event.15" (Option.some (BlePayload.mk 970 PyVal.none)))
    (BlePayload.mk 970 PyVal.none) rfl rfl (by decide)
    (by intro e he; exact absurd he (List.not_mem_nil e))
    (fun ip h => Option.noConfusion h)
    (by intro pr h; simp [MiotServiceM.get_property] at h)

/-- C10: when the fetched props hold no event.15 entry with nonzero
timestamp and no prop.4121 entry with a non-None value, the loop
produces no pending state and the stored state is unchanged. -/
theorem C10_state_unchanged (now : Int) (tmo : Option Int)
    (pi : Option MiotPropertyM) (srv : MiotServiceM)
    (entries : List BleEntry) (prev : Option Bool)
    (h15 : ∀ e ∈ entries, e.key = "event.15" →
      ∀ p, e.v = Option.some p → p.tim = 0)
    (h21 : ∀ e ∈ entries, e.key = "prop.4121" → e.v = Option.none) :
    bleApplyState prev (bleLoop now tmo pi srv entries).fst = prev := by
  have hall : ∀ e ∈ entries, bleStaSetter e = false := by
    intro e he
    cases hv : e.v with
    | none => simp [bleStaSetter, hv]
    | some p =>
      rw [bleStaSetter, hv]
      have h1 : ¬ e.key = "prop.4121" := by
        intro hc
        exact Option.noConfusion ((h21 e he hc) ▸ hv)
      by_cases hk : e.key = "event.15"
      · have htim := h15 e he hk p hv
        simp [hk, htim, h1]
      · simp [hk, h1]
  have hfst : (bleLoop now tmo pi srv entries).fst = Option.none := by
    rw [bleLoop]
    exact bleFoldl_fst _ _ _ _ _ _ hall
  rw [hfst]
  rfl

/-- C10 witness: a lone prop.4103 illumination entry leaves a stored
on state untouched. -/
theorem C10_state_unchanged_witness :
    bleApplyState (Option.some true)
      (bleLoop 5 Option.none Option.none
        (MiotServiceM.mk "magnet_sensor" [] true)
        [BleEntry.mk "prop.4103"
          (Option.some (BlePayload.mk 0 (PyVal.int 55)))]).fst =
      Option.some true :=
  C10_state_unchanged 5 Option.none Option.none
    (MiotServiceM.mk "magnet_sensor" [] true)
    [BleEntry.mk "prop.4103" (Option.some (BlePayload.mk 0 (PyVal.int 55)))]
    (Option.some true)
    (by
      intro e he hk p hv
      rw [List.mem_singleton] at he
      subst he
      exact absurd hk (by decide))
    (by
      intro e he hk
      rw [List.mem_singleton] at he
      subst he
      exact absurd hk (by decide))

lemma toiletFanStep_subs_mono (af : Bool) (acc : ToiletSubsResult)
    (p : MiotPropertyM) (n : String) (h : n ∈ acc.subs) :
    n ∈ (toiletFanStep af acc p).subs := by
  unfold toiletFanStep
  split_ifs <;> simp [h]

lemma toiletFanStep_updated_mono (af : Bool) (acc : ToiletSubsResult)
    (p : MiotPropertyM) (n : String) (h : n ∈ acc.updated) :
    n ∈ (toiletFanStep af acc p).updated := by
  unfold toiletFanStep
  split_ifs <;> simp [h]

lemma toiletFanStep_created_mono (af : Bool) (acc : ToiletSubsResult)
    (p : MiotPropertyM) (n : String) (h : n ∈ acc.created_fans) :
    n ∈ (toiletFanStep af acc p).created_fans := by
  unfold toiletFanStep
  split_ifs <;> simp [h]

lemma toiletFanStep_switches_eq (af : Bool) (acc : ToiletSubsResult)
    (p : MiotPropertyM) :
    (toiletFanStep af acc p).created_switches = acc.created_switches := by
  unfold toiletFanStep
  split_ifs <;> rfl

lemma toiletFans_subs_mono (af : Bool) (ps : List MiotPropertyM) :
    ∀ acc n, n ∈ acc.subs →
      n ∈ (ps.foldl (toiletFanStep af) acc).subs := by
  induction ps with
  | nil => exact fun acc n h => h
  | cons p rest ih =>
    intro acc n h
    exact ih _ n (toiletFanStep_subs_mono af acc p n h)

lemma toiletFans_updated_mono (af : Bool) (ps : List MiotPropertyM) :
    ∀ acc n, n ∈ acc.updated →
      n ∈ (ps.foldl (toiletFanStep af) acc).updated := by
  induction ps with
  | nil => exact fun acc n h => h
  | cons p rest ih =>
    intro acc n h
    exact ih _ n (toiletFanStep_updated_mono af acc p n h)

lemma toiletFans_created_mono (af : Bool) (ps : List MiotPropertyM) :
    ∀ acc n, n ∈ acc.created_fans →
      n ∈ (ps.foldl (toiletFanStep af) acc).created_fans := by
  induction ps with
  | nil => exact fun acc n h => h
  | cons p rest ih =>
    intro acc n h
    exact ih _ n (toiletFanStep_created_mono af acc p n h)

lemma toiletFans_switches_eq (af : Bool) (ps : List MiotPropertyM) :
    ∀ acc, (ps.foldl (toiletFanStep af) acc).created_switches =
      acc.created_switches := by
  induction ps with
  | nil => exact fun acc => rfl
  | cons p rest ih =>
    intro acc
    rw [List.foldl_cons, ih, toiletFanStep_switches_eq]

lemma toiletFans_inv (af : Bool) (ps : List MiotPropertyM)
    (subs0 : List String) :
    ∀ acc : ToiletSubsResult,
      (∀ n ∈ subs0, n ∈ acc.subs) →
      acc.created_fans.Nodup →
      (∀ n ∈ acc.created_fans, ¬ n ∈ subs0) →
      (∀ n ∈ acc.created_fans, n ∈ acc.subs) →
      (∀ n ∈ acc.subs, n ∈ subs0 ∨ n ∈ acc.created_fans) →
      (∀ n ∈ subs0, n ∈ (ps.foldl (toiletFanStep af) acc).subs) ∧
      (ps.foldl (toiletFanStep af) acc).created_fans.Nodup ∧
      (∀ n ∈ (ps.foldl (toiletFanStep af) acc).created_fans,
        ¬ n ∈ subs0) ∧
      (∀ n ∈ (ps.foldl (toiletFanStep af) acc).created_fans,
        n ∈ (ps.foldl (toiletFanStep af) acc).subs) ∧
      (∀ n ∈ (ps.foldl (toiletFanStep af) acc).subs,
        n ∈ subs0 ∨ n ∈ (ps.foldl (toiletFanStep af) acc).created_fans) := by
  induction ps with
  | nil => exact fun acc h1 h2 h3 h4 h5 => ⟨h1, h2, h3, h4, h5⟩
  | cons p rest ih =>
    intro acc h1 h2 h3 h4 h5
    rw [List.foldl_cons]
    refine ih (toiletFanStep af acc p) ?_ ?_ ?_ ?_ ?_
    · exact fun n hn => toiletFanStep_subs_mono af acc p n (h1 n hn)
    · unfold toiletFanStep
      split_ifs with hq hin haf
      · exact h2
      · exact h2
      · have hns : p.name ∉ acc.created_fans := fun hc => hin (h4 _ hc)
        simp [List.Nodup, List.pairwise_append, h2]
        constructor
        · exact List.Pairwise.imp (fun h => h) h2
        · intro a ha
          intro hc
          exact hns (hc ▸ ha)
      · exact h2
    · unfold toiletFanStep
      split_ifs with hq hin haf
      · exact h3
      · exact h3
      · intro n hn
        rcases List.mem_append.mp hn with h | h
        · exact h3 n h
        · rw [List.mem_singleton] at h
          subst h
          exact fun hc => hin (h1 _ hc)
      · exact h3
    · unfold toiletFanStep
      split_ifs with hq hin haf
      · exact h4
      · exact h4
      · intro n hn
        rcases List.mem_append.mp hn with h | h
        · exact List.mem_append.mpr (Or.inl (h4 n h))
        · exact List.mem_append.mpr (Or.inr h)
      · exact h4
    · unfold toiletFanStep
      split_ifs with hq hin haf
      · exact h5
      · exact h5
      · intro n hn
        rcases List.mem_append.mp hn with h | h
        · rcases h5 n h with h' | h'
          · exact Or.inl h'
          · exact Or.inr (List.mem_append.mpr (Or.inl h'))
        · exact Or.inr (List.mem_append.mpr (Or.inr h))
      · exact h5

lemma toiletFans_processed (ps : List MiotPropertyM) :
    ∀ acc (p : MiotPropertyM), p ∈ ps →
      ¬ (p.value_list = [] ∧ p.value_range = Option.none) →
      p.name ∈ (ps.foldl (toiletFanStep true) acc).subs := by
  induction ps with
  | nil =>
    intro acc p hp
    exact absurd hp (List.not_mem_nil p)
  | cons q rest ih =>
    intro acc p hp hq
    rw [List.foldl_cons]
    rcases List.mem_cons.mp hp with h | h
    · subst h
      apply toiletFans_subs_mono
      by_cases h1 : p.value_list = [] ∧ p.value_range = Option.none
      · exact absurd h1 hq
      · by_cases h2 : p.name ∈ acc.subs
        · simp [toiletFanStep, h1, h2]
        · simp [toiletFanStep, h1, h2]
    · exact ih _ p h hq

lemma toiletFans_updated_of_mem (ps : List MiotPropertyM) :
    ∀ acc (p : MiotPropertyM), p ∈ ps →
      ¬ (p.value_list = [] ∧ p.value_range = Option.none) →
      p.name ∈ acc.subs →
      p.name ∈ (ps.foldl (toiletFanStep true) acc).updated := by
  induction ps with
  | nil =>
    intro acc p hp
    exact absurd hp (List.not_mem_nil p)
  | cons q rest ih =>
    intro acc p hp hq hin
    rw [List.foldl_cons]
    rcases List.mem_cons.mp hp with h | h
    · subst h
      apply toiletFans_updated_mono
      by_cases h1 : p.value_list = [] ∧ p.value_range = Option.none
      · exact absurd h1 hq
      · simp [toiletFanStep, h1, hin]
    · exact ih _ p h hq (toiletFanStep_subs_mono true acc q p.name hin)

/-- C8: on a toilet entity update with fan and switch platforms
available, every candidate property with a value list or value range
ends up with a sub-entity key; fan keys are created at most once and
only when not already present, otherwise the existing sub-entity is
updated; the power property gets a switch sub-entity key, updated
rather than recreated when it already exists. -/
theorem C8_toilet_sub_entities (spec : MiotSpecM) (srv : MiotServiceM)
    (propPower : Option String) (subs : List String) :
    (∀ p ∈ toiletPls spec srv,
      ¬ (p.value_list = [] ∧ p.value_range = Option.none) →
        p.name ∈ (toiletUpdateSubs spec srv true true propPower subs).subs) ∧
    (toiletUpdateSubs spec srv true true propPower subs).created_fans.Nodup ∧
    (∀ n ∈ (toiletUpdateSubs spec srv true true propPower
        subs).created_fans, ¬ n ∈ subs) ∧
    (∀ p ∈ toiletPls spec srv,
      ¬ (p.value_list = [] ∧ p.value_range = Option.none) →
      p.name ∈ subs →
        p.name ∈ (toiletUpdateSubs spec srv true true propPower
          subs).updated ∧
        ¬ p.name ∈ (toiletUpdateSubs spec srv true true propPower
          subs).created_fans) ∧
    (∀ pnm, propPower = Option.some pnm →
      pnm ∈ (toiletUpdateSubs spec srv true true propPower subs).subs ∧
      (pnm ∈ subs →
        pnm ∈ (toiletUpdateSubs spec srv true true propPower
          subs).updated)) ∧
    (toiletUpdateSubs spec srv true true propPower
      subs).created_switches.Nodup ∧
    (∀ n ∈ (toiletUpdateSubs spec srv true true propPower
      subs).created_switches, ¬ n ∈ subs) := by
  obtain ⟨i1, i2, i3, i4, i5⟩ :=
    toiletFans_inv true (toiletPls spec srv) subs
      { subs := subs, created_fans := [], created_switches := [],
        updated := [] }
      (fun n h => h) List.nodup_nil
      (fun n h => absurd h (List.not_mem_nil n))
      (fun n h => absurd h (List.not_mem_nil n))
      (fun n h => Or.inl h)
  have hsw := toiletFans_switches_eq true (toiletPls spec srv)
    { subs := subs, created_fans := [], created_switches := [],
      updated := [] }
  cases propPower with
  | none =>
    have hU : toiletUpdateSubs spec srv true true Option.none subs =
        (toiletPls spec srv).foldl (toiletFanStep true)
          { subs := subs, created_fans := [], created_switches := [],
            updated := [] } := rfl
    rw [hU]
    refine ⟨?_, i2, i3, ?_, ?_, ?_, ?_⟩
    · exact fun p hp hq => toiletFans_processed _ _ p hp hq
    · intro p hp hq hin
      exact ⟨toiletFans_updated_of_mem _ _ p hp hq hin,
        fun hc => i3 _ hc hin⟩
    · intro pnm h
      exact Option.noConfusion h
    · rw [hsw]
      exact List.nodup_nil
    · rw [hsw]
      exact fun n h _ => absurd h (List.not_mem_nil n)
  | some pnm =>
    by_cases hin : pnm ∈ ((toiletPls spec srv).foldl (toiletFanStep true)
      { subs := subs, created_fans := [], created_switches := [],
        updated := [] }).subs
    · have hU : toiletUpdateSubs spec srv true true (Option.some pnm)
          subs =
          { (toiletPls spec srv).foldl (toiletFanStep true)
              { subs := subs, created_fans := [], created_switches := [],
                updated := [] } with
            updated := ((toiletPls spec srv).foldl (toiletFanStep true)
              { subs := subs, created_fans := [], created_switches := [],
                updated := [] }).updated ++ [pnm] } := by
        rw [toiletUpdateSubs]
        simp only [if_pos hin]
      rw [hU]
      refine ⟨?_, i2, i3, ?_, ?_, ?_, ?_⟩
      · exact fun p hp hq => toiletFans_processed _ _ p hp hq
      · intro p hp hq hpin
        refine ⟨?_, fun hc => i3 _ hc hpin⟩
        exact List.mem_append.mpr
          (Or.inl (toiletFans_updated_of_mem _ _ p hp hq hpin))
      · intro x hx
        obtain rfl : pnm = x := Option.some.inj hx
        exact ⟨hin, fun _ => List.mem_append.mpr (Or.inr (by simp))⟩
      · rw [hsw]
        exact List.nodup_nil
      · rw [hsw]
        exact fun n h _ => absurd h (List.not_mem_nil n)
    · have hU : toiletUpdateSubs spec srv true true (Option.some pnm)
          subs =
          { (toiletPls spec srv).foldl (toiletFanStep true)
              { subs := subs, created_fans := [], created_switches := [],
                updated := [] } with
            subs := ((toiletPls spec srv).foldl (toiletFanStep true)
              { subs := subs, created_fans := [], created_switches := [],
                updated := [] }).subs ++ [pnm],
            created_switches := ((toiletPls spec srv).foldl
              (toiletFanStep true)
              { subs := subs, created_fans := [], created_switches := [],
                updated := [] }).created_switches ++ [pnm] } := by
        rw [toiletUpdateSubs]
        simp only [if_neg hin, if_pos rfl, ite_true]
      rw [hU]
      refine ⟨?_, i2, i3, ?_, ?_, ?_, ?_⟩
      · intro p hp hq
        exact List.mem_append.mpr
          (Or.inl (toiletFans_processed _ _ p hp hq))
      · intro p hp hq hpin
        exact ⟨toiletFans_updated_of_mem _ _ p hp hq hpin,
          fun hc => i3 _ hc hpin⟩
      · intro x hx
        obtain rfl : pnm = x := Option.some.inj hx
        refine ⟨List.mem_append.mpr (Or.inr (by simp)), ?_⟩
        intro hsub
        exact absurd (i1 _ hsub) hin
      · rw [hsw]
        simp
      · rw [hsw]
        intro n hn
        simp only [List.nil_append, List.mem_singleton] at hn
        subst hn
        exact fun hc => hin (i1 _ hc)

/-- C8 witness: a toilet service with one mode property carrying a
value list, and a power property, ends the update with sub-entity
keys for both. -/
theorem C8_toilet_sub_entities_witness :
    "mode" ∈ (toiletUpdateSubs (MiotSpecM.mk "toilet" [])
        (MiotServiceM.mk "toilet"
          [MiotPropertyM.mk "mode" "toilet.mode" Option.none [("auto", 1)]]
          true) true true (Option.some "toilet.on") []).subs ∧
    "toilet.on" ∈ (toiletUpdateSubs (MiotSpecM.mk "toilet" [])
        (MiotServiceM.mk "toilet"
          [MiotPropertyM.mk "mode" "toilet.mode" Option.none [("auto", 1)]]
          true) true true (Option.some "toilet.on") []).subs := by
  have h := C8_toilet_sub_entities (MiotSpecM.mk "toilet" [])
    (MiotServiceM.mk "toilet"
      [MiotPropertyM.mk "mode" "toilet.mode" Option.none [("auto", 1)]]
      true) (Option.some "toilet.on") []
  exact ⟨h.1 (MiotPropertyM.mk "mode" "toilet.mode" Option.none
      [("auto", 1)]) (by decide) (by decide),
    (h.2.2.2.2.1 "toilet.on" rfl).1⟩
